import Mathlib

/-!
Verification of the `chinup` lazy batched request queue (`src/chinup/chinup.py`)
against its natural-language specification.

The Python code is shallowly embedded: JSON-like Python values become the
inductive `Value`; in-place mutation of a `Chinup` object becomes explicit
state passing; a Python `raise` becomes an `Option Err` / `Except Err`
result.  The code under `src/chinup` is the authority; external
collaborators that are not part of this repository's sources
(`json.loads`, `urlobject.URL`, `urllib.urlencode`) and repository modules
missing from `src/` (`queue`, `lowlevel`, `util`) are modelled minimally,
or abstracted as explicit function parameters, as noted on each definition.
The code is Python 2 era (`basestring`, `__nonzero__`), so `map` returns a
list and text comparison is code-point lexicographic.
-/

/- Python/JSON values as produced by `json.loads` and handled by
`chinup.py`.  `Value.null` doubles as Python `None` (JSON `null` decodes
to `None`).  Lists and dicts are represented by the mutually defined
`VList` and `VDict` so that equality stays kernel-decidable. -/
mutual
inductive Value where
  | null
  | bool (b : Bool)
  | int (n : Int)
  | str (s : String)
  | list (xs : VList)
  | dict (xs : VDict)
deriving DecidableEq
inductive VList where
  | vnil
  | vcons (hd : Value) (tl : VList)
deriving DecidableEq
inductive VDict where
  | dnil
  | dcons (k : String) (v : Value) (tl : VDict)
deriving DecidableEq
end

namespace VList

/-- View a `VList` as a Lean list. -/
def toList : VList → List Value
  | .vnil => []
  | .vcons h t => h :: toList t

/-- Build a `VList` from a Lean list. -/
def ofList : List Value → VList
  | [] => .vnil
  | h :: t => .vcons h (ofList t)

/-- Number of elements. -/
def length : VList → Nat
  | .vnil => 0
  | .vcons _ t => length t + 1

/-- Emptiness test. -/
def isEmpty : VList → Bool
  | .vnil => true
  | .vcons _ _ => false

end VList

namespace VDict

/-- Python `d.get(k)`: first binding of `k` (dicts hold unique keys). -/
def get : VDict → String → Option Value
  | .dnil, _ => none
  | .dcons k v t, key => if k = key then some v else get t key

/-- Python `k in d`. -/
def hasKey (d : VDict) (k : String) : Bool := (d.get k).isSome

/-- Number of entries. -/
def length : VDict → Nat
  | .dnil => 0
  | .dcons _ _ t => length t + 1

/-- Python `d[k] = v`: replace the value of an existing key in place,
otherwise append the new binding. -/
def set : VDict → String → Value → VDict
  | .dnil, key, v => .dcons key v .dnil
  | .dcons k w t, key, v =>
      if k = key then .dcons k v t else .dcons k w (set t key v)

/-- Python `del d[k]`: remove the binding of `k` (assumed present). -/
def del : VDict → String → VDict
  | .dnil, _ => .dnil
  | .dcons k v t, key => if k = key then t else .dcons k v (del t key)

/-- Python `d.update(e)`: fold `set` over the entries of `e` in order. -/
def update (d : VDict) : VDict → VDict
  | .dnil => d
  | .dcons k v t => update (d.set k v) t

end VDict

/-- Python truthiness of a value (`if limit:` etc.). -/
def Value.truthy : Value → Bool
  | .null => false
  | .bool b => b
  | .int n => n ≠ 0
  | .str s => ¬s.isEmpty
  | .list xs => ¬xs.isEmpty
  | .dict d => d.length ≠ 0

/-- Exception kinds stored on a call.  `fbError` is the remote-API error
(`facepy` parity via `parse_fb_exception`), `decodeError` a `json.loads`
`ValueError`, `canceled` a `ChinupCanceled`, `pagingError` the
`PagingError` raised while iterating pages. -/
inductive ExnKind where
  | decodeError
  | fbError (payload : Value)
  | canceled
  | pagingError (msg : String)
deriving DecidableEq

/-- A stored exception object.  `chinup` models the `exc.chinup`
back-reference attribute, holding the identity label of the call that the
error was attached to. -/
structure Exn where
  kind : ExnKind
  chinup : Option Nat
deriving DecidableEq

/-- A Python exception propagating out of a call: either a stored chinup
exception being re-raised, a built-in error, or the model boundary marker
`syncRequired` for control flow that enters the missing `queue.sync`
(claims only concern already-completed calls, which never sync). -/
inductive Err where
  | stored (e : Exn)
  | typeError
  | valueError
  | keyError
  | indexError
  | assertError
  | syncRequired
deriving DecidableEq

/-- `int(v)` for Python values: ints and bools convert, strings parse as an
optional sign plus decimal digits (`ValueError` otherwise), anything else
is a `TypeError`. -/
def pyInt (v : Value) : Except Err Int :=
  match v with
  | .int n => .ok n
  | .bool b => .ok (if b then 1 else 0)
  | .str s => match pyStrToInt s.toList with
      | some n => .ok n
      | none => .error .valueError
  | _ => .error .typeError
where
  digitAcc : Nat → List Char → Option Nat
    | acc, [] => some acc
    | acc, c :: r => if c.isDigit then digitAcc (acc * 10 + (c.toNat - 48)) r else none
  pyStrToInt : List Char → Option Int
    | [] => none
    | '-' :: r => match r with
        | [] => none
        | _ => (digitAcc 0 r).map (fun n => -(n : Int))
    | '+' :: r => match r with
        | [] => none
        | _ => (digitAcc 0 r).map (fun n => (n : Int))
    | l => (digitAcc 0 l).map (fun n => (n : Int))

/-- `len(v)` for Python values: sequences and mappings have a length,
`None`/numbers raise `TypeError` (e.g. `len(None)`). -/
def pyLen (v : Value) : Except Err Nat :=
  match v with
  | .str s => .ok s.length
  | .list xs => .ok xs.length
  | .dict d => .ok d.length
  | _ => .error .typeError

/-- Python list indexing `xs[i]` with negative-index semantics. -/
def pyIndex (xs : List Value) (i : Int) : Except Err Value :=
  if h : 0 ≤ i ∧ i < xs.length then
    .ok (xs.get ⟨i.toNat, by omega⟩)
  else if h2 : -(xs.length : Int) ≤ i ∧ i < 0 then
    .ok (xs.get ⟨(i + xs.length).toNat, by omega⟩)
  else .error .indexError

/-- Python `needle in hay` prefix step: does `p` lead `l`? -/
def leadMatch : List Char → List Char → Bool
  | [], _ => true
  | _ :: _, [] => false
  | a :: as, b :: bs => a == b && leadMatch as bs

/-- Search helper for substring containment. -/
def subFind (needle : List Char) : List Char → Bool
  | [] => needle.isEmpty
  | c :: rest => leadMatch needle (c :: rest) || subFind needle rest

/-- Python substring containment `needle in hay` on text
(used for the bogus-link check on line 182 of `chinup.py`). -/
def strHasSub (hay needle : String) : Bool := subFind needle.toList hay.toList

/-- Code-point comparison of characters (Python 2 text ordering). -/
def charLtb (a b : Char) : Bool := a.toNat < b.toNat

/-- Lexicographic strict order on text, code point by code point. -/
def strLtb (a b : String) : Bool := go a.toList b.toList
where
  go : List Char → List Char → Bool
    | [], [] => false
    | [], _ :: _ => true
    | _ :: _, [] => false
    | x :: xs, y :: ys => charLtb x y || (x == y && go xs ys)

/-- Split a character list at every occurrence of `sep`. -/
def splitOnChar (sep : Char) : List Char → List (List Char)
  | [] => [[]]
  | c :: rest =>
      if c = sep then [] :: splitOnChar sep rest
      else match splitOnChar sep rest with
        | [] => [[c]]
        | p :: ps => (c :: p) :: ps

/-- Split a character list at the first occurrence of `sep`, if any. -/
def breakAtChar (sep : Char) : List Char → Option (List Char × List Char)
  | [] => none
  | c :: rest =>
      if c = sep then some ([], rest)
      else match breakAtChar sep rest with
        | none => none
        | some (a, b) => some (c :: a, b)

/-- The query portion of a URL text: everything after the first `?`
(empty when there is no `?`).  Models `urlobject`'s query extraction. -/
def urlQueryPart (s : String) : List Char :=
  match breakAtChar '?' s.toList with
  | none => []
  | some (_, q) => q

/-- `URL(link).query_dict` of the external `urlobject` library, modelled
as parsing `k=v` pairs separated by `&` after the first `?`.  Pairs
without `=` are dropped (their value would be `None`, which is falsy in
every use in `chinup.py`). -/
def urlQueryPairs (s : String) : List (String × String) :=
  (splitOnChar '&' (urlQueryPart s)).filterMap fun p =>
    match breakAtChar '=' p with
    | none => none
    | some (k, v) => some (String.mk k, String.mk v)

/-- `query_dict.get(k)`: `urlobject` builds a dict from the pairs in
order, so a repeated key keeps the last value. -/
def urlQueryGet (s : String) (k : String) : Option String :=
  ((urlQueryPairs s).filter (fun p => p.1 = k)).getLast?.map (·.2)

/-- `URL(next_link).with_scheme('').with_netloc('')[1:]` of the external
`urlobject` library (line 206 of `chinup.py`): drop an `http(s)://host`
head if present, then drop the single leading character (the slash). -/
def urlStripToRel (link : String) : String :=
  let cs := link.toList
  let rest :=
    if leadMatch "https://".toList cs then
      (cs.drop 8).dropWhile (· ≠ '/')
    else if leadMatch "http://".toList cs then
      (cs.drop 7).dropWhile (· ≠ '/')
    else cs
  String.mk (rest.drop 1)

/-- A parameter value in a request `data` mapping: a plain text value, or
a file-like object (something with a `.read` attribute, identified by a
label standing for the object). -/
inductive PVal where
  | s (v : String)
  | file (label : Nat)
deriving DecidableEq

/-- str() of a parameter value when it is serialized into a query. -/
def PVal.asStr : PVal → String
  | .s v => v
  | .file _ => "<file>"

/-- The request attribute of a call:
`self.request = dict(method=method, path=path, data=data)` (line 58).
`data` is the caller's parameter dict, kept as an insertion-ordered
association list with unique keys. -/
structure Request where
  method : String
  path : String
  data : Option (List (String × PVal))
deriving DecidableEq

/- A Pending Call (`class Chinup`).  The object graph is embedded
directly: `_next_page` holds the successor call itself, making any
materialized page chain finite by construction.  Two model-only labels
are added: `oid` stands for the CPython object identity (used by the
`exc.chinup` back-reference), and `cls` for `self.__class__` (subclasses
exist via `ChinupBar.chinup_class`).  The `queue` attribute is not
modelled; invocations of the missing `queue.append` are recorded as
explicit events instead. -/
inductive Chinup where
  | mk (oid : Nat) (cls : Nat) (request : Request) (token : Option String)
       (raise_exceptions : Bool) (callback : Option Nat)
       (prefetch_next_page : Bool) (resp : Option Value)
       (exc : Option Exn) (nextp : Option Chinup)

namespace Chinup

/-- Object identity label. -/
def oid : Chinup → Nat | .mk i _ _ _ _ _ _ _ _ _ => i

/-- Class tag (`self.__class__`). -/
def cls : Chinup → Nat | .mk _ c _ _ _ _ _ _ _ _ => c

/-- `self.request`. -/
def request : Chinup → Request | .mk _ _ r _ _ _ _ _ _ _ => r

/-- `self.token`. -/
def token : Chinup → Option String | .mk _ _ _ t _ _ _ _ _ _ => t

/-- `self.raise_exceptions`. -/
def raise_exceptions : Chinup → Bool | .mk _ _ _ _ re _ _ _ _ _ => re

/-- `self.callback` (an opaque function label; `None` when absent). -/
def callback : Chinup → Option Nat | .mk _ _ _ _ _ cb _ _ _ _ => cb

/-- `self.prefetch_next_page`. -/
def prefetch_next_page : Chinup → Bool | .mk _ _ _ _ _ _ p _ _ _ => p

/-- `self._response`. -/
def _response : Chinup → Option Value | .mk _ _ _ _ _ _ _ r _ _ => r

/-- `self._exception`. -/
def _exception : Chinup → Option Exn | .mk _ _ _ _ _ _ _ _ e _ => e

/-- `self._next_page`. -/
def _next_page : Chinup → Option Chinup | .mk _ _ _ _ _ _ _ _ _ n => n

/-- Assign `self._response`. -/
def withResp : Chinup → Option Value → Chinup
  | .mk i c r t re cb p _ e n, v => .mk i c r t re cb p v e n

/-- Assign `self._exception` (raw field write, no back-reference). -/
def withExc : Chinup → Option Exn → Chinup
  | .mk i c r t re cb p v _ n, e => .mk i c r t re cb p v e n

/-- Assign `self._next_page`. -/
def withNext : Chinup → Option Chinup → Chinup
  | .mk i c r t re cb p v e _, n => .mk i c r t re cb p v e n

end Chinup

namespace Chinup

/-- `Chinup.completed` (lines 77-84): `False` while unresolved, otherwise
the truthy pair `(self._response, self._exception)`.  Modelled as an
`Option` of the pair. -/
def completed (c : Chinup) : Option (Option Value × Option Exn) :=
  if c._response.isSome || c._exception.isSome then some (c._response, c._exception)
  else none

/-- The `response` property (lines 90-93): `self._sync()` then
`self._response`.  `queue.sync` is outside `src/`; on an uncompleted call
the model stops with the `syncRequired` marker, on a completed call
`_sync` is a no-op (line 87) and the stored response is returned. -/
def response (c : Chinup) : Except Err (Option Value) :=
  if c.completed.isSome then .ok c._response else .error .syncRequired

/-- The `exception` property getter (lines 148-151): `self._sync()` then
`self._exception`. -/
def exception (c : Chinup) : Except Err (Option Exn) :=
  if c.completed.isSome then .ok c._exception else .error .syncRequired

/-- The `exception` property setter (lines 153-157):
`self._exception = value; if value: self._exception.chinup = self`.
The back-reference records this call's identity label. -/
def set_exception (c : Chinup) (value : Option Exn) : Chinup :=
  match value with
  | none => c.withExc none
  | some e => c.withExc (some { e with chinup := some c.oid })

/-- `Chinup.cancel` (lines 145-146): store a `ChinupCanceled`. -/
def cancel (c : Chinup) : Chinup :=
  c.set_exception (some { kind := .canceled, chinup := none })

/-- `Chinup._maybe_raise_exception` (lines 159-162): re-raise the stored
exception when `raise_exceptions` is set.  The `and` short-circuits, so
the `exception` property (and its sync) is only consulted when
`raise_exceptions` is true. -/
def maybe_raise_exception (c : Chinup) : Except Err Unit :=
  if c.raise_exceptions then do
    match ← c.exception with
    | some e => .error (.stored e)
    | none => .ok ()
  else .ok ()

/-- `Chinup._response_get(name)` (lines 132-135): raise-if-error, then
`self.response.get(name)` when the response is a dict, else Python
`None`. -/
def response_get (c : Chinup) (name : String) : Except Err Value := do
  _ ← c.maybe_raise_exception
  match ← c.response with
  | some (.dict d) => .ok ((d.get name).getD .null)
  | _ => .ok .null

/-- The `data` property (lines 137-139). -/
def data (c : Chinup) : Except Err Value := c.response_get "data"

/-- The `error` property (lines 141-143). -/
def error (c : Chinup) : Except Err Value := c.response_get "error"

end Chinup

/-- Result of a state-mutating operation: the updated call, the calls
passed to `queue.append` (one entry per invocation, in order), and the
Python exception propagating out, if any.  Mutations performed before the
raise persist, as they do for in-place mutation in Python. -/
structure OpRes where
  chinup : Chinup
  appended : List Chinup
  err : Option Err

namespace Chinup

/-- `Chinup._get_next_page(next_link)` (lines 198-213): construct the
next-page call — same method, path taken from the link with scheme,
netloc and leading slash stripped, no token and no data (the link embeds
both), inheriting `raise_exceptions`, `callback` and
`prefetch_next_page` — and hand it to `queue.append`.  `queue.append`
lives outside `src/`; the model records the invocation and returns the
new call itself (the spec's dedup may return an existing equal call
instead; no claim depends on which).  The fresh object identity is
modelled as `oid + 1`; no claim depends on the new call's label. -/
def get_next_page (c : Chinup) (next_link : String) : Chinup :=
  .mk (c.oid + 1) c.cls
    { method := c.request.method, path := urlStripToRel next_link, data := none }
    none c.raise_exceptions c.callback c.prefetch_next_page none none none

/-- The declared page-size limit of a response (lines 188-189):
`self.response.get('limit') or URL(next_link).query_dict.get('limit')`,
with Python `or` returning its first truthy operand (the query value, a
text, when the response carries no truthy `limit`; Python `None` — here
`Value.null` — when neither side has one). -/
def declared_limit (d : VDict) (next_link : String) : Value :=
  let respLimit := (d.get "limit").getD .null
  if respLimit.truthy then respLimit
  else match urlQueryGet next_link "limit" with
    | some s => .str s
    | none => .null

/-- `Chinup.fetch_next_page` (lines 164-196), translated branch by
branch: cached `_next_page` wins; a non-dict response returns; a missing
`paging`/`next` key returns (`except KeyError`, while subscripting a
non-dict raises `TypeError` uncaught); a link containing `/server.php`
returns; a truthy declared limit with `len(self.data)` below
`int(limit)` returns; otherwise the next-page call is built and
enqueued. -/
def fetch_next_page (c : Chinup) : OpRes :=
  if c._next_page.isSome then ⟨c, [], none⟩
  else
    match c.response with
    | .error e => ⟨c, [], some e⟩
    | .ok r =>
      match r with
      | some (.dict d) =>
        match d.get "paging" with
        | none => ⟨c, [], none⟩
        | some (.dict pd) =>
          match pd.get "next" with
          | none => ⟨c, [], none⟩
          | some (.str next_link) =>
            if strHasSub next_link "/server.php" then ⟨c, [], none⟩
            else
              let limit := declared_limit d next_link
              if limit.truthy then
                match c.data with
                | .error e => ⟨c, [], some e⟩
                | .ok dv =>
                  match pyLen dv with
                  | .error e => ⟨c, [], some e⟩
                  | .ok n =>
                    match pyInt limit with
                    | .error e => ⟨c, [], some e⟩
                    | .ok m =>
                      if (n : Int) < m then ⟨c, [], none⟩
                      else
                        let nc := c.get_next_page next_link
                        ⟨c.withNext (some nc), [nc], none⟩
              else
                let nc := c.get_next_page next_link
                ⟨c.withNext (some nc), [nc], none⟩
          | some _ => ⟨c, [], some .typeError⟩
        | some _ => ⟨c, [], some .typeError⟩
      | _ => ⟨c, [], none⟩

/-- `Chinup.next_page` (lines 215-221): fetch, then return the cached
successor. -/
def next_page (c : Chinup) : OpRes := c.fetch_next_page

end Chinup

/-- Outcome of the body-decode block of the `response` setter
(lines 99-116). -/
inductive BodyOut where
  | fatal
  | decodeFail
  | ok (newResp : Value)

/-- The body-decode block of the `response` setter (lines 99-116),
as a pure function of the raw response.  `jsonLoads` abstracts the
external `json.loads`: `none` is a `ValueError` (caught, `decodeFail`),
`some v` the decoded value.  Feeding a non-text, non-`None` body to
`json.loads` is an uncaught `TypeError` (`fatal`).  On success a dict
body carrying `data` or `error` is merged into the response, any other
value is wrapped under `data`, and the raw `body` entry is deleted. -/
def bodyStep (jsonLoads : String → Option Value) (response : Value) : BodyOut :=
  match response with
  | .dict d =>
    match d.get "body" with
    | none => .ok response
    | some .null => .ok response
    | some (.str s) =>
      match jsonLoads s with
      | none => .decodeFail
      | some body =>
        let d2 :=
          match body with
          | .dict bd =>
              if bd.hasKey "data" || bd.hasKey "error" then d.update bd
              else d.set "data" body
          | _ => d.set "data" body
        .ok (.dict (d2.del "body"))
    | some _ => .fatal
  | _ => .ok response

namespace Chinup

/-- Steps 4-6 of the `response` setter (lines 118-130): remote-error
detection, callback invocation, and the pagination prefetch.
`parseFbException` abstracts the missing `lowlevel.parse_fb_exception`;
its result goes through the `exception` setter only while no exception is
stored.  The callback is an opaque label: its invocation is recorded by
the caller, its effects on other state are not modelled. -/
def resolveTail (parseFbException : Value → Option ExnKind) (c : Chinup) : OpRes :=
  let c2 :=
    if c._exception.isNone then
      c.set_exception ((parseFbException (c._response.getD .null)).map fun k =>
        { kind := k, chinup := none })
    else c
  if c2.prefetch_next_page then c2.fetch_next_page else ⟨c2, [], none⟩

/-- The `response` setter `Chinup.response = raw` (lines 95-130), the
resolution entry point: store the raw response, decode and promote its
body (a decode failure becomes the stored error unless one is already
stored), detect a remote-API error envelope unless an error is already
stored, invoke the callback, and prefetch the next page when enabled. -/
def set_response (jsonLoads : String → Option Value)
    (parseFbException : Value → Option ExnKind) (c : Chinup)
    (response : Value) : OpRes :=
  let c1 := c.withResp (some response)
  match bodyStep jsonLoads response with
  | .fatal => ⟨c1, [], some .typeError⟩
  | .decodeFail =>
      let c2 :=
        if c1._exception.isNone then
          c1.set_exception (some { kind := .decodeError, chinup := none })
        else c1
      c2.resolveTail parseFbException
  | .ok newResp => (c1.withResp (some newResp)).resolveTail parseFbException

end Chinup

/-- Result of draining `Chinup.__iter__`: the yielded records, the head
call as left behind (its `_exception` may have been set to a
`PagingError`), and the Python exception propagating out, if any. -/
structure IterRes where
  yields : List Value
  head : Chinup
  err : Option Err

namespace Chinup

/-- One page step of `Chinup.__iter__` (lines 223-238), walking `cur`
while `head` is the call iteration started from (`self` in the source).
When a page's `data` is not a list: if `self` holds no exception yet, a
`PagingError` is stored on `self`, its back-reference is repointed at the
offending page, and `self._maybe_raise_exception()` runs; then the loop
breaks.  Otherwise the page's records are yielded and the loop advances
to `cur.next_page()`.  A successor that `fetch_next_page` would newly
construct is always uncompleted, so iterating into it immediately enters
the missing `queue.sync`; the model stops there with `syncRequired`. -/
def iterFrom (head : Chinup) : Chinup → List Value × Chinup × Option Err
  | .mk oid0 cls0 req0 tok0 re0 cb0 pf0 resp0 exc0 nextp0 =>
    let cur : Chinup := .mk oid0 cls0 req0 tok0 re0 cb0 pf0 resp0 exc0 nextp0
    match cur.data with
    | .error e => ([], head, some e)
    | .ok dv =>
      match dv with
      | .list xs =>
        match nextp0 with
        | some nxt =>
            match iterFrom head nxt with
            | (ys, h2, er) => (xs.toList ++ ys, h2, er)
        | none =>
            match cur.fetch_next_page with
            | ⟨_, _, some e⟩ => (xs.toList, head, some e)
            | ⟨c2, _, none⟩ =>
                match c2._next_page with
                | none => (xs.toList, head, none)
                | some _ => (xs.toList, head, some .syncRequired)
      | _ =>
        match head.exception with
        | .error e => ([], head, some e)
        | .ok (some _) => ([], head, none)
        | .ok none =>
            let e : Exn := { kind := .pagingError "Unexpected chinup.data while paging",
                             chinup := some cur.oid }
            let h2 := (head.set_exception (some { kind := e.kind, chinup := none })).withExc (some e)
            match h2.maybe_raise_exception with
            | .error er => ([], h2, some er)
            | .ok _ => ([], h2, none)

/-- `Chinup.__iter__` (lines 223-238): drain the lazy sequence starting
at `self`. -/
def iter (c : Chinup) : IterRes :=
  match c.iterFrom c with
  | (ys, h, er) => ⟨ys, h, er⟩

end Chinup

namespace Chinup

/-- `Chinup.__len__` (lines 240-248): `len(self.data or [])`, the current
page only. -/
def lenOp (c : Chinup) : Except Err Nat := do
  let dv ← c.data
  match dv with
  | .list xs => .ok xs.length
  | .str s => .ok s.length
  | .dict d => .ok d.length
  | _ => .ok 0

/-- Subscript keys accepted by `__getitem__`. -/
inductive PyKey where
  | int (i : Int)
  | str (s : String)
deriving DecidableEq

/-- Python subscript `v[key]` for the fallback line
`return self.data[name]` (line 261). -/
def pySubscript (v : Value) (key : PyKey) : Except Err Value :=
  match v, key with
  | .dict d, .str s => match d.get s with
      | some w => .ok w
      | none => .error .keyError
  | .dict _, .int _ => .error .keyError
  | .list xs, .int i => pyIndex xs.toList i
  | .list _, .str _ => .error .typeError
  | .str s, .int i =>
      let cs := s.toList
      if h : 0 ≤ i ∧ i < cs.length then
        .ok (.str (String.mk [cs.get ⟨i.toNat, by omega⟩]))
      else if h2 : -(cs.length : Int) ≤ i ∧ i < 0 then
        .ok (.str (String.mk [cs.get ⟨(i + cs.length).toNat, by omega⟩]))
      else .error .indexError
  | _, _ => .error .typeError

/-- `Chinup.__getitem__` (lines 254-261).  For an integer key on a list
`data`: positions below the current page's length are answered from the
current page (Python indexing, so negative positions index the current
page from its end); otherwise paging is invoked via `list(self)[name]`.
The second component records whether the full-flattened-sequence fallback
ran. -/
def getitem (c : Chinup) (key : PyKey) : Except Err Value × Bool :=
  match c.data with
  | .error e => (.error e, false)
  | .ok dv =>
    match key, dv with
    | .int i, .list xs =>
        if i < (xs.length : Int) then (pyIndex xs.toList i, false)
        else
          match c.iter with
          | ⟨_, _, some e⟩ => (.error e, true)
          | ⟨ys, _, none⟩ => (pyIndex ys i, true)
    | _, _ => (pySubscript dv key, false)

end Chinup

/-- A `urlobject.URL` value, modelled as the pre-query part plus the
ordered query parameter list; two URLs are equal iff they render to the
same text, i.e. iff these components agree. -/
structure UrlM where
  path : String
  query : List (String × String)
deriving DecidableEq

namespace UrlM

/-- `URL(s)`: split the text at the first `?` into path and query. -/
def ofStr (s : String) : UrlM :=
  match breakAtChar '?' s.toList with
  | none => ⟨s, []⟩
  | some (p, _) => ⟨String.mk p, urlQueryPairs s⟩

/-- `url.set_query_param(k, v)` of `urlobject`: delete any existing
occurrence of the parameter, then append it. -/
def setParam (u : UrlM) (k v : String) : UrlM :=
  ⟨u.path, u.query.filter (fun p => p.1 ≠ k) ++ [(k, v)]⟩

/-- `url.set_query_params([...])`: set each pair in order. -/
def setParams (u : UrlM) (ps : List (String × String)) : UrlM :=
  ps.foldl (fun a p => a.setParam p.1 p.2) u

end UrlM

/-- Stable insertion of a pair into a key-sorted list: the new pair goes
after existing pairs with a strictly smaller key and before the rest. -/
def insByKey (x : String × PVal) : List (String × PVal) → List (String × PVal)
  | [] => [x]
  | y :: ys => if strLtb y.1 x.1 then y :: insByKey x ys else x :: y :: ys

/-- Python `sorted(data.items())`: pairs ordered lexicographically, which
for a dict's items (unique keys) is ordering by key; the sort is
stable. -/
def sortItems : List (String × PVal) → List (String × PVal)
  | [] => []
  | x :: xs => insByKey x (sortItems xs)

/-- `urllib.urlencode` on already-sorted pairs, modelled as plain
`k=v&...` joining (percent-escaping is irrelevant to every claim). -/
def urlencode (ps : List (String × PVal)) : String :=
  String.intercalate "&" (ps.map fun p => p.1 ++ "=" ++ p.2.asStr)

/-- Modelled from the spec: `util.partition` (not under `src/`), which
splits the parameter items, preserving order, into the plain pairs and
the file-like pairs — "parameters are partitioned into plain key/value
pairs (become a URL-encoded body) and file-like values (become a separate
files payload)". -/
def partitionFiles (ps : List (String × PVal)) :
    List (String × PVal) × List (String × Nat) :=
  (ps.filter (fun p => match p.2 with | .s _ => true | .file _ => false),
   ps.filterMap (fun p => match p.2 with | .s _ => none | .file n => some (p.1, n)))

/-- Global configuration read by `make_request_dict`:
`settings.MIGRATIONS` already JSON-encoded by the missing `util.as_json`,
and the optional `settings.RELATIVE_URL_HOOK` path-rewriting hook. -/
structure Cfg where
  migrations : Option String
  hook : Option (UrlM → UrlM)

/-- A wire request dict `{method, relative_url, body?, files?}` as
returned by `make_request_dict`; Python dict equality on this fixed shape
is field-wise equality with absent keys as `none`. -/
structure ReqDict where
  method : String
  relative_url : UrlM
  body : Option String
  files : Option (List (String × Nat))
deriving DecidableEq

/-- Truthiness of the token attribute (`elif self.token:`). -/
def tokenTruthy : Option String → Bool
  | none => false
  | some t => ¬t.isEmpty

namespace Chinup

/-- `Chinup.make_request_dict` (lines 322-366).  `DEBUG_TOKEN` turns into
a `GET` on `debug_token` carrying the credential as `input_token`
(asserting a token is present); otherwise a truthy token is attached as
`access_token`.  Non-`POST` methods then append the data items sorted as
query parameters; the migrations override and the relative-URL hook apply
last.  For `POST` the items are partitioned into plain pairs — URL-encoded
sorted into `body` — and file-likes — kept as `files` — each key omitted
when its part is empty. -/
def make_request_dict (cfg : Cfg) (c : Chinup) : Except Err ReqDict := do
  let method := c.request.method
  let relative_url := UrlM.ofStr c.request.path
  let dataItems := c.request.data.getD []
  let (method, relative_url) ←
    if method = "DEBUG_TOKEN" then
      if tokenTruthy c.token then
        pure ("GET",
          (UrlM.ofStr "debug_token").setParams [("input_token", (c.token.getD ""))])
      else throw .assertError
    else if tokenTruthy c.token then
      pure (method, relative_url.setParam "access_token" (c.token.getD ""))
    else
      pure (method, relative_url)
  let relative_url :=
    if method ≠ "POST" then
      relative_url.setParams ((sortItems dataItems).map fun p => (p.1, p.2.asStr))
    else relative_url
  let relative_url :=
    match cfg.migrations with
    | some m => relative_url.setParam "migrations_override" m
    | none => relative_url
  let relative_url :=
    match cfg.hook with
    | some f => f relative_url
    | none => relative_url
  if method = "POST" then
    let (plain, files) := partitionFiles dataItems
    return { method := method, relative_url := relative_url,
             body := if plain.isEmpty then none else some (urlencode (sortItems plain)),
             files := if files.isEmpty then none else some files }
  else
    return { method := method, relative_url := relative_url,
             body := none, files := none }

end Chinup

/-- The dict `_make_eq_dict` returns: the wire request with its `files`
entry *overwritten* by the `dev_inode`-mapped list (always present after
line 303, empty when the request carried no files), so `__eq__` compares
the device/inode pairs and never the file objects themselves.  Python
dict equality on this fixed key shape is field-wise equality. -/
structure EqDict where
  method : String
  relative_url : UrlM
  body : Option String
  files : List (Nat × Nat)
deriving DecidableEq

namespace Chinup

/-- `Chinup._make_eq_dict` (lines 298-304): the request dict with
`req['files']` replaced by `map(dev_inode, req.get('files', []))`.  In
Python 2 mapping over the files dict iterates its keys; `util.dev_inode`
is outside `src/` and abstracted as the parameter `devInode`. -/
def make_eq_dict (cfg : Cfg) (devInode : String → Nat × Nat) (c : Chinup) :
    Except Err EqDict := do
  let req ← c.make_request_dict cfg
  return { method := req.method, relative_url := req.relative_url,
           body := req.body,
           files := (req.files.getD []).map fun p => devInode p.1 }

/-- `Chinup.__eq__` (lines 270-296): classes must match, then the
normalized eq-dicts; if the left call carries a callback, callbacks and
completion pairs must match; finally, if either call is completed, the
completion pairs must match. -/
def eq (cfg : Cfg) (devInode : String → Nat × Nat) (a b : Chinup) :
    Except Err Bool := do
  if a.cls ≠ b.cls then return false
  let ra ← a.make_eq_dict cfg devInode
  let rb ← b.make_eq_dict cfg devInode
  if ra ≠ rb then return false
  if a.callback.isSome then
    if a.callback ≠ b.callback || a.completed ≠ b.completed then return false
  if (a.completed.isSome || b.completed.isSome) && a.completed ≠ b.completed then
    return false
  return true

/-- `Chinup.prepare_batch` (lines 368-381): the full list of calls paired
with wire requests for only the first 50 (the provider's batch
ceiling). -/
def prepare_batch (cfg : Cfg) (chinups : List Chinup) :
    Except Err (List Chinup × List ReqDict) := do
  let requests ← (chinups.take 50).mapM (make_request_dict cfg)
  return (chinups, requests)

end Chinup

/-- Build a `VDict` from a list of bindings (unique keys expected). -/
def VDict.ofList : List (String × Value) → VDict
  | [] => .dnil
  | p :: t => .dcons p.1 p.2 (VDict.ofList t)

namespace Chinup

/-- `Chinup.__init__` (lines 48-62): a freshly issued call — request
assembled, no response, no exception, no successor.  Issuance is a total
constructor: nothing is raised when a call is created. -/
def init (oid cls : Nat) (method path : String)
    (data : Option (List (String × PVal))) (token : Option String)
    (raise_exceptions : Bool) (callback : Option Nat)
    (prefetch_next_page : Bool) : Chinup :=
  .mk oid cls ⟨method, path, data⟩ token raise_exceptions callback
    prefetch_next_page none none none

/-- The materialized page chain hanging off a call: the call itself
followed by the pages reachable through `_next_page`. -/
def pages : Chinup → List Chinup
  | .mk i c r t re cb p v e n =>
      (Chinup.mk i c r t re cb p v e n) ::
        (match n with
         | some nx => pages nx
         | none => [])

/-- The last call of the materialized page chain. -/
def lastPage : Chinup → Chinup
  | .mk i c r t re cb p v e none => .mk i c r t re cb p v e none
  | .mk _ _ _ _ _ _ _ _ _ (some nx) => lastPage nx

/-- The records of a page when its `data` reads back as a list. -/
def pageDataList (p : Chinup) : Option (List Value) :=
  match p.data with
  | .ok (.list xs) => some xs.toList
  | _ => none

end Chinup

/-- The response value `set_response` leaves stored: the body-promoted
response when decoding succeeded, the raw response otherwise. -/
def bodyResult (jl : String → Option Value) (r : Value) : Value :=
  match bodyStep jl r with
  | .ok nr => nr
  | _ => r

/-- A `json.loads` stand-in that fails on every input (adequate wherever
the response carries no text body, and realizing the decode-failure
branch where it does). -/
def jlNone : String → Option Value := fun _ => none

/-- A `parse_fb_exception` stand-in that finds no error envelope. -/
def pfeNone : Value → Option ExnKind := fun _ => none

/-- Modelled from the spec: `lowlevel.parse_fb_exception` (not under
`src/`) — "inspect the merged response for a provider-specific error
envelope and, if present, construct the corresponding error" — here as a
concrete sample detector used by witnesses: a dict response carrying an
`error` key yields a remote-API error with that payload. -/
def pfeEnvelope : Value → Option ExnKind := fun v =>
  match v with
  | .dict d =>
      match d.get "error" with
      | some e => some (.fbError e)
      | none => none
  | _ => none

/-- Configuration with no migrations override and no URL hook. -/
def cfgNone : Cfg := ⟨none, none⟩

/-- A trivial `dev_inode` stand-in. -/
def devInodeZero : String → Nat × Nat := fun _ => (0, 0)

/-- Key comparison used by `sorted(data.items())` on a dict's items. -/
def keyLtb (a b : String × PVal) : Bool := strLtb a.1 b.1

/- Concrete calls and responses exercising the claims. -/

/-- A call resolved with a plain response (for re-resolution checks). -/
def exC1chinup : Chinup :=
  .mk 20 0 ⟨"GET", "me", none⟩ none true none false
    (some (.dict (VDict.ofList [("data", .int 1)]))) none none

/-- A second raw response, different from the stored one. -/
def exC1resp2 : Value := .dict (VDict.ofList [("data", .int 2)])

/-- A completed page whose declared limit is the non-numeric text
`"many"` while a next-page link is present. -/
def exC2chinup : Chinup :=
  .mk 14 0 ⟨"GET", "v2/x", none⟩ none true none true
    (some (.dict (VDict.ofList
      [("data", .list .vnil),
       ("paging", .dict (VDict.ofList [("next", .str "/v2/x?a=1")])),
       ("limit", .str "many")]))) none none

/-- A completed page with limit 2 and two records, carrying a next-page
link: pagination must advance. -/
def exC2full : Chinup :=
  .mk 10 0 ⟨"GET", "v2/x", none⟩ none true none true
    (some (.dict (VDict.ofList
      [("data", .list (VList.ofList [.int 1, .int 2])),
       ("paging", .dict (VDict.ofList
         [("next", .str "https://graph.facebook.com/v2/x?after=t&limit=2")])),
       ("limit", .int 2)]))) none none

/-- A completed page with limit 5 but only two records: the cursor is
exhausted and pagination must stop. -/
def exC2short : Chinup :=
  .mk 11 0 ⟨"GET", "v2/x", none⟩ none true none true
    (some (.dict (VDict.ofList
      [("data", .list (VList.ofList [.int 1, .int 2])),
       ("paging", .dict (VDict.ofList [("next", .str "/v2/x?after=t")])),
       ("limit", .int 5)]))) none none

/-- An unresolved call without a callback. -/
def exC3a : Chinup := .mk 50 0 ⟨"GET", "me", none⟩ none true none true none none none

/-- The same request, carrying a callback. -/
def exC3b : Chinup := .mk 51 0 ⟨"GET", "me", none⟩ none true (some 7) true none none none

/-- A call already carrying a cancellation error. -/
def exC4chinup : Chinup :=
  .mk 60 0 ⟨"GET", "me", none⟩ none true none false none
    (some { kind := .canceled, chinup := some 60 }) none

/-- A raw response carrying both a remote error envelope and a next-page
link with a declared limit — the shape that makes resolution raise. -/
def exC5resp : Value :=
  .dict (VDict.ofList
    [("error", .dict (VDict.ofList [("code", .int 100)])),
     ("paging", .dict (VDict.ofList [("next", .str "/v2/x?a=1")])),
     ("limit", .int 2)])

/-- A fresh call with `raise_exceptions` and prefetch enabled. -/
def exC5chinup : Chinup := .mk 21 0 ⟨"GET", "me", none⟩ none true none true none none none

/-- A call resolved with a dict response that has no `data` payload, with
`raise_exceptions` disabled. -/
def exC5nodata : Chinup :=
  .mk 22 0 ⟨"GET", "me", none⟩ none false none false
    (some (.dict (VDict.ofList [("x", .int 1)]))) none none

/-- A call resolved with a stored error, `raise_exceptions` enabled. -/
def exC5err : Chinup :=
  .mk 23 0 ⟨"GET", "me", none⟩ none true none false
    (some (.dict (VDict.ofList [("error", .dict .dnil)])))
    (some { kind := .fbError (.dict .dnil), chinup := some 23 }) none

/-- Two queued calls for a small batch. -/
def exC6chinups : List Chinup :=
  [.mk 70 0 ⟨"GET", "me", none⟩ (some "TOK") true none true none none none,
   .mk 71 0 ⟨"GET", "me/friends", some [("b", .s "2"), ("a", .s "1")]⟩ (some "TOK")
     true none true none none none]

/-- The third and last page of a three-page cursor (one record, no
further link). -/
def exC7p3 : Chinup :=
  .mk 3 0 ⟨"GET", "v2/x", none⟩ none true none true
    (some (.dict (VDict.ofList [("data", .list (VList.ofList [.int 5]))]))) none none

/-- The second page (two records, next link, successor materialized). -/
def exC7p2 : Chinup :=
  .mk 2 0 ⟨"GET", "v2/x", none⟩ none true none true
    (some (.dict (VDict.ofList
      [("data", .list (VList.ofList [.int 3, .int 4])),
       ("paging", .dict (VDict.ofList [("next", .str "/v2/x?after=t")]))])))
    none (some exC7p3)

/-- The first page (two records, next link, successor materialized). -/
def exC7p1 : Chinup :=
  .mk 1 0 ⟨"GET", "v2/x", none⟩ none true none true
    (some (.dict (VDict.ofList
      [("data", .list (VList.ofList [.int 1, .int 2])),
       ("paging", .dict (VDict.ofList [("next", .str "/v2/x?after=t")]))])))
    none (some exC7p2)

/-- A page whose `data` is not a list. -/
def exC7bad : Chinup :=
  .mk 5 0 ⟨"GET", "v2/x", none⟩ none true none true
    (some (.dict (VDict.ofList [("data", .int 7)]))) none none

/-- A good first page chaining into the non-list page. -/
def exC7headbad : Chinup :=
  .mk 4 0 ⟨"GET", "v2/x", none⟩ none true none true
    (some (.dict (VDict.ofList
      [("data", .list (VList.ofList [.int 1, .int 2])),
       ("paging", .dict (VDict.ofList [("next", .str "/v2/x?after=t")]))])))
    none (some exC7bad)

/-- A `POST` whose parameters were inserted in non-alphabetical order. -/
def exC9ba : Chinup :=
  .mk 41 0 ⟨"POST", "me/feed", some [("b", .s "2"), ("a", .s "1")]⟩ none true none true
    none none none

/-- The same `POST` with the parameters inserted in the other order. -/
def exC9ab : Chinup :=
  .mk 42 0 ⟨"POST", "me/feed", some [("a", .s "1"), ("b", .s "2")]⟩ none true none true
    none none none

/-- A call resolved with a three-record page. -/
def exC10chinup : Chinup :=
  .mk 30 0 ⟨"GET", "v2/x", none⟩ none true none true
    (some (.dict (VDict.ofList
      [("data", .list (VList.ofList [.int 1, .int 2, .int 3]))]))) none none


/-- A completed page whose next-page link hits the bogus endpoint, even
though limit and data length would otherwise demand a fetch. -/
def exC8chinup : Chinup :=
  .mk 13 0 ⟨"GET", "v2/x", none⟩ none true none true
    (some (.dict (VDict.ofList
      [("data", .list (VList.ofList [.int 1, .int 2])),
       ("paging", .dict (VDict.ofList
         [("next", .str "https://g.co/x/server.php?a=1")])),
       ("limit", .int 2)]))) none none


/-- A raw response whose text body does not decode. -/
def exC4resp : Value := .dict (VDict.ofList [("body", .str "not json")])


-- ===== THEOREMS =====

namespace VList

theorem toList_ofList (l : List Value) : toList (ofList l) = l := by
  induction l with
  | nil => rfl
  | cons h t ih => simp [ofList, toList, ih]

theorem length_toList : (l : VList) → l.toList.length = l.length
  | .vnil => rfl
  | .vcons h t => by simp [toList, length, length_toList t]

end VList

namespace Chinup

@[simp] theorem oid_withResp (c : Chinup) (v : Option Value) : (c.withResp v).oid = c.oid := by
  cases c; rfl

@[simp] theorem oid_withExc (c : Chinup) (e : Option Exn) : (c.withExc e).oid = c.oid := by
  cases c; rfl

@[simp] theorem oid_withNext (c : Chinup) (n : Option Chinup) : (c.withNext n).oid = c.oid := by
  cases c; rfl

@[simp] theorem resp_withResp (c : Chinup) (v : Option Value) : (c.withResp v)._response = v := by
  cases c; rfl

@[simp] theorem resp_withExc (c : Chinup) (e : Option Exn) : (c.withExc e)._response = c._response := by
  cases c; rfl

@[simp] theorem resp_withNext (c : Chinup) (n : Option Chinup) : (c.withNext n)._response = c._response := by
  cases c; rfl

@[simp] theorem exc_withResp (c : Chinup) (v : Option Value) : (c.withResp v)._exception = c._exception := by
  cases c; rfl

@[simp] theorem exc_withExc (c : Chinup) (e : Option Exn) : (c.withExc e)._exception = e := by
  cases c; rfl

@[simp] theorem exc_withNext (c : Chinup) (n : Option Chinup) : (c.withNext n)._exception = c._exception := by
  cases c; rfl

@[simp] theorem next_withResp (c : Chinup) (v : Option Value) : (c.withResp v)._next_page = c._next_page := by
  cases c; rfl

@[simp] theorem next_withExc (c : Chinup) (e : Option Exn) : (c.withExc e)._next_page = c._next_page := by
  cases c; rfl

@[simp] theorem next_withNext (c : Chinup) (n : Option Chinup) : (c.withNext n)._next_page = n := by
  cases c; rfl

@[simp] theorem raise_withResp (c : Chinup) (v : Option Value) : (c.withResp v).raise_exceptions = c.raise_exceptions := by
  cases c; rfl

@[simp] theorem raise_withExc (c : Chinup) (e : Option Exn) : (c.withExc e).raise_exceptions = c.raise_exceptions := by
  cases c; rfl

@[simp] theorem raise_withNext (c : Chinup) (n : Option Chinup) : (c.withNext n).raise_exceptions = c.raise_exceptions := by
  cases c; rfl

@[simp] theorem prefetch_withResp (c : Chinup) (v : Option Value) : (c.withResp v).prefetch_next_page = c.prefetch_next_page := by
  cases c; rfl

@[simp] theorem prefetch_withExc (c : Chinup) (e : Option Exn) : (c.withExc e).prefetch_next_page = c.prefetch_next_page := by
  cases c; rfl

@[simp] theorem callback_withResp (c : Chinup) (v : Option Value) : (c.withResp v).callback = c.callback := by
  cases c; rfl

@[simp] theorem callback_withExc (c : Chinup) (e : Option Exn) : (c.withExc e).callback = c.callback := by
  cases c; rfl

@[simp] theorem request_withResp (c : Chinup) (v : Option Value) : (c.withResp v).request = c.request := by
  cases c; rfl

@[simp] theorem request_withExc (c : Chinup) (e : Option Exn) : (c.withExc e).request = c.request := by
  cases c; rfl

@[simp] theorem cls_withResp (c : Chinup) (v : Option Value) : (c.withResp v).cls = c.cls := by
  cases c; rfl

@[simp] theorem cls_withExc (c : Chinup) (e : Option Exn) : (c.withExc e).cls = c.cls := by
  cases c; rfl

@[simp] theorem token_withResp (c : Chinup) (v : Option Value) : (c.withResp v).token = c.token := by
  cases c; rfl

@[simp] theorem token_withExc (c : Chinup) (e : Option Exn) : (c.withExc e).token = c.token := by
  cases c; rfl

/-- `set_exception` writes the value with the back-reference attached. -/
@[simp] theorem exc_set_exception_some (c : Chinup) (e : Exn) :
    (c.set_exception (some e))._exception = some { e with chinup := some c.oid } := by
  cases c; rfl

@[simp] theorem exc_set_exception_none (c : Chinup) :
    (c.set_exception none)._exception = none := by
  cases c; rfl

/-- `fetch_next_page` never touches the stored response or exception. -/
theorem fetch_preserves (c : Chinup) :
    (c.fetch_next_page).chinup._response = c._response ∧
    (c.fetch_next_page).chinup._exception = c._exception := by
  unfold fetch_next_page
  dsimp only
  repeat' split
  all_goals simp

end Chinup

/-- C8: for a completed call whose next-page link points at the bogus
`/server.php` endpoint, `fetch_next_page` enqueues nothing, changes
nothing, and raises nothing, whatever the declared limit and data are. -/
theorem claim_C8_bogus_link_suppression (c : Chinup) (d pd : VDict) (link : String)
    (h1 : c._next_page = none)
    (h2 : c._response = some (.dict d))
    (h3 : d.get "paging" = some (.dict pd))
    (h4 : pd.get "next" = some (.str link))
    (h5 : strHasSub link "/server.php" = true) :
    c.fetch_next_page = ⟨c, [], none⟩ := by
  simp [Chinup.fetch_next_page, Chinup.response, Chinup.completed, h1, h2, h3, h4, h5]

/-- C8 witness: the concrete bogus-link page is left untouched. -/
theorem claim_C8_witness : exC8chinup.fetch_next_page = ⟨exC8chinup, [], none⟩ :=
  claim_C8_bogus_link_suppression exC8chinup
    (VDict.ofList
      [("data", .list (VList.ofList [.int 1, .int 2])),
       ("paging", .dict (VDict.ofList
         [("next", .str "https://g.co/x/server.php?a=1")])),
       ("limit", .int 2)])
    (VDict.ofList [("next", .str "https://g.co/x/server.php?a=1")])
    "https://g.co/x/server.php?a=1" rfl rfl (by decide) (by decide) (by decide)

/-- C2 (amended): with a completed response carrying a usable next-page
link, a truthy declared limit that converts to an integer stops
pagination exactly when the current page has fewer records, and a falsy
(absent) declared limit always advances with exactly one enqueued call;
a truthy non-convertible limit is settled by the counterexample. -/
theorem claim_C2_pagination_termination (c : Chinup) (d pd : VDict) (link : String)
    (h1 : c._next_page = none)
    (h2 : c._response = some (.dict d))
    (h3 : d.get "paging" = some (.dict pd))
    (h4 : pd.get "next" = some (.str link))
    (h5 : strHasSub link "/server.php" = false) :
    (∀ (xs : VList) (m : Int),
      (Chinup.declared_limit d link).truthy = true →
      c.data = .ok (.list xs) →
      pyInt (Chinup.declared_limit d link) = .ok m →
      ((xs.length : Int) < m → c.fetch_next_page = ⟨c, [], none⟩) ∧
      (¬(xs.length : Int) < m →
        c.fetch_next_page =
          ⟨c.withNext (some (c.get_next_page link)), [c.get_next_page link], none⟩)) ∧
    ((Chinup.declared_limit d link).truthy = false →
      c.fetch_next_page =
        ⟨c.withNext (some (c.get_next_page link)), [c.get_next_page link], none⟩) := by
  constructor
  · intro xs m ht hdata hint
    constructor
    · intro hlt
      simp [Chinup.fetch_next_page, Chinup.response, Chinup.completed,
            h1, h2, h3, h4, h5, ht, hdata, hint, pyLen, hlt]
    · intro hge
      simp [Chinup.fetch_next_page, Chinup.response, Chinup.completed,
            h1, h2, h3, h4, h5, ht, hdata, hint, pyLen, hge]
  · intro hf
    simp [Chinup.fetch_next_page, Chinup.response, Chinup.completed,
          h1, h2, h3, h4, h5, hf]

/-- C2 counterexample: a present but non-numeric declared limit does not
"proceed with the fetch" — `int(limit)` fails with a `ValueError` and
nothing is enqueued, not exactly one call. -/
theorem claim_C2_counterexample :
    (exC2chinup.fetch_next_page).appended = [] ∧
    (exC2chinup.fetch_next_page).err = some .valueError ∧
    (Chinup.declared_limit
      (VDict.ofList
        [("data", .list .vnil),
         ("paging", .dict (VDict.ofList [("next", .str "/v2/x?a=1")])),
         ("limit", .str "many")]) "/v2/x?a=1").truthy = true := by
  refine ⟨?_, ?_, by decide⟩ <;> rfl

/-- C2 witness: on the full page (limit 2, two records) the theorem
yields exactly one enqueued next-page call, and on the short page
(limit 5, two records) it yields none. -/
theorem claim_C2_witness :
    exC2full.fetch_next_page =
      ⟨exC2full.withNext (some (exC2full.get_next_page
        "https://graph.facebook.com/v2/x?after=t&limit=2")),
       [exC2full.get_next_page "https://graph.facebook.com/v2/x?after=t&limit=2"],
       none⟩ ∧
    exC2short.fetch_next_page = ⟨exC2short, [], none⟩ := by
  constructor
  · exact ((claim_C2_pagination_termination exC2full
      (VDict.ofList
        [("data", .list (VList.ofList [.int 1, .int 2])),
         ("paging", .dict (VDict.ofList
           [("next", .str "https://graph.facebook.com/v2/x?after=t&limit=2")])),
         ("limit", .int 2)])
      (VDict.ofList
        [("next", .str "https://graph.facebook.com/v2/x?after=t&limit=2")])
      "https://graph.facebook.com/v2/x?after=t&limit=2"
      rfl rfl (by decide) (by decide) (by decide)).1
      (VList.ofList [.int 1, .int 2]) 2 (by decide) rfl rfl).2 (by decide)
  · exact ((claim_C2_pagination_termination exC2short
      (VDict.ofList
        [("data", .list (VList.ofList [.int 1, .int 2])),
         ("paging", .dict (VDict.ofList [("next", .str "/v2/x?after=t")])),
         ("limit", .int 5)])
      (VDict.ofList [("next", .str "/v2/x?after=t")])
      "/v2/x?after=t"
      rfl rfl (by decide) (by decide) (by decide)).1
      (VList.ofList [.int 1, .int 2]) 5 (by decide) rfl rfl).1 (by decide)

namespace Chinup

@[simp] theorem resp_set_exception (c : Chinup) (v : Option Exn) :
    (c.set_exception v)._response = c._response := by
  cases v <;> (cases c; rfl)

@[simp] theorem next_set_exception (c : Chinup) (v : Option Exn) :
    (c.set_exception v)._next_page = c._next_page := by
  cases v <;> (cases c; rfl)

@[simp] theorem prefetch_set_exception (c : Chinup) (v : Option Exn) :
    (c.set_exception v).prefetch_next_page = c.prefetch_next_page := by
  cases v <;> (cases c; rfl)

@[simp] theorem raise_set_exception (c : Chinup) (v : Option Exn) :
    (c.set_exception v).raise_exceptions = c.raise_exceptions := by
  cases v <;> (cases c; rfl)

@[simp] theorem oid_set_exception (c : Chinup) (v : Option Exn) :
    (c.set_exception v).oid = c.oid := by
  cases v <;> (cases c; rfl)

@[simp] theorem callback_set_exception (c : Chinup) (v : Option Exn) :
    (c.set_exception v).callback = c.callback := by
  cases v <;> (cases c; rfl)

end Chinup

/-- The prefetch step at the end of resolution keeps the stored response
and exception of the call it runs on. -/
theorem prefetch_step_preserves (c2 : Chinup) :
    ((if c2.prefetch_next_page = true then c2.fetch_next_page
      else ⟨c2, [], none⟩) : OpRes).chinup._response = c2._response ∧
    ((if c2.prefetch_next_page = true then c2.fetch_next_page
      else ⟨c2, [], none⟩) : OpRes).chinup._exception = c2._exception := by
  split
  · exact Chinup.fetch_preserves c2
  · exact ⟨rfl, rfl⟩

/-- `resolveTail` never touches the stored response and never erases a
stored exception. -/
theorem resolveTail_preserves (pfe : Value → Option ExnKind) (c : Chinup) :
    ((Chinup.resolveTail pfe c).chinup)._response = c._response ∧
    (∀ e, c._exception = some e →
      ((Chinup.resolveTail pfe c).chinup)._exception = some e) := by
  unfold Chinup.resolveTail
  constructor
  · rw [(prefetch_step_preserves _).1]
    by_cases hn : c._exception.isNone = true <;> simp [hn]
  · intro e he
    have hn : c._exception.isNone = false := by simp [he]
    rw [(prefetch_step_preserves _).2]
    simp [hn, he]

/-- Evaluating `data` on a completed, error-free call reads the `data`
entry of the response dict (Python `None` when absent). -/
theorem data_eval (c : Chinup) (d : VDict)
    (hresp : c._response = some (.dict d)) (hexc : c._exception = none) :
    c.data = .ok ((d.get "data").getD .null) := by
  cases hre : c.raise_exceptions <;>
    simp [Chinup.data, Chinup.response_get, Chinup.maybe_raise_exception,
          Chinup.exception, Chinup.response, Chinup.completed, hresp, hexc, hre] <;>
    rfl

/-- C10: a negative in-range index on a call whose current page is a
non-empty list is answered from the current page by Python indexing from
the end, and the flattened-pages fallback is not taken. -/
theorem claim_C10_negative_index (c : Chinup) (d : VDict) (xs : VList) (i : Int)
    (hresp : c._response = some (.dict d))
    (hdata : d.get "data" = some (.list xs))
    (hexc : c._exception = none)
    (hlo : -(xs.toList.length : Int) ≤ i) (hhi : i < 0) :
    c.getitem (.int i) =
      (.ok (xs.toList.get ⟨(i + xs.toList.length).toNat, by omega⟩), false) := by
  have hd : c.data = .ok (.list xs) := by
    rw [data_eval c d hresp hexc, hdata]
    rfl
  have hlen := VList.length_toList xs
  have hcond : i < (xs.length : Int) := by omega
  simp only [Chinup.getitem, hd, hcond, if_pos]
  unfold pyIndex
  rw [dif_neg (by omega), dif_pos (by omega)]

/-- C10 witness: index −1 on the three-record page returns its last
record without touching further pages. -/
theorem claim_C10_witness :
    exC10chinup.getitem (.int (-1)) = (.ok (.int 3), false) := by
  have h := claim_C10_negative_index exC10chinup
    (VDict.ofList [("data", .list (VList.ofList [.int 1, .int 2, .int 3]))])
    (VList.ofList [.int 1, .int 2, .int 3]) (-1) rfl (by decide) rfl
    (by decide) (by decide)
  simpa using h

/-- A stored exception survives `set_response` unchanged on every path. -/
theorem set_response_keeps_stored (jl : String → Option Value)
    (pfe : Value → Option ExnKind) (c : Chinup) (r : Value) (e : Exn)
    (he : c._exception = some e) :
    ((Chinup.set_response jl pfe c r).chinup)._exception = some e := by
  unfold Chinup.set_response
  cases hb : bodyStep jl r with
  | fatal => simp [he]
  | decodeFail =>
      dsimp only
      have hn : (c.withResp (some r))._exception.isNone = false := by simp [he]
      simp only [hn, Bool.false_eq_true, if_false, ite_false]
      exact (resolveTail_preserves pfe _).2 e (by simp [he])
  | ok newResp =>
      dsimp only
      exact (resolveTail_preserves pfe _).2 e (by simp [he])

/-- C1 (amended): re-invoking `set_response` on an already-resolved call
is neither rejected nor ignored — it re-runs resolution and replaces the
stored response with the newly processed one — but a stored exception is
never replaced, so error resolution happens at most once. -/
theorem claim_C1_set_response_not_idempotent (jl : String → Option Value)
    (pfe : Value → Option ExnKind) (c : Chinup) (r : Value) :
    ((Chinup.set_response jl pfe c r).chinup)._response = some (bodyResult jl r) ∧
    (∀ e, c._exception = some e →
      ((Chinup.set_response jl pfe c r).chinup)._exception = some e) := by
  refine ⟨?_, fun e he => set_response_keeps_stored jl pfe c r e he⟩
  unfold Chinup.set_response bodyResult
  cases hb : bodyStep jl r with
  | fatal => simp
  | decodeFail =>
      dsimp only
      rw [(resolveTail_preserves pfe _).1]
      split <;> simp
  | ok newResp =>
      dsimp only
      rw [(resolveTail_preserves pfe _).1]
      simp

/-- C1 counterexample: a call already resolved with a response has that
response replaced by a second `set_response`, not left unchanged. -/
theorem claim_C1_counterexample :
    exC1chinup.completed.isSome = true ∧
    ((Chinup.set_response jlNone pfeNone exC1chinup exC1resp2).chinup)._response
      ≠ exC1chinup._response := by
  exact ⟨by decide, by decide⟩

/-- C1 witness: on the cancelled call, re-resolution stores the new
response yet keeps the cancellation error. -/
theorem claim_C1_witness :
    ((Chinup.set_response jlNone pfeNone exC4chinup exC1resp2).chinup)._response
      = some (bodyResult jlNone exC1resp2) ∧
    ((Chinup.set_response jlNone pfeNone exC4chinup exC1resp2).chinup)._exception
      = some { kind := .canceled, chinup := some 60 } :=
  ⟨(claim_C1_set_response_not_idempotent jlNone pfeNone exC4chinup exC1resp2).1,
   (claim_C1_set_response_not_idempotent jlNone pfeNone exC4chinup exC1resp2).2 _ rfl⟩

/-- C4: an error stored before `set_response` starts survives every later
step unchanged, and a decode failure stored by the body step is exactly
what remains after the remote-error detection step — the first error
wins. -/
theorem claim_C4_first_error_wins (jl : String → Option Value)
    (pfe : Value → Option ExnKind) (c : Chinup) (r : Value) :
    (∀ e, c._exception = some e →
      ((Chinup.set_response jl pfe c r).chinup)._exception = some e) ∧
    (c._exception = none → bodyStep jl r = .decodeFail →
      ((Chinup.set_response jl pfe c r).chinup)._exception =
        some { kind := .decodeError, chinup := some c.oid }) := by
  constructor
  · intro e he
    exact set_response_keeps_stored jl pfe c r e he
  · intro hnone hb
    unfold Chinup.set_response
    rw [hb]
    dsimp only
    have hn : (c.withResp (some r))._exception.isNone = true := by simp [hnone]
    simp only [hn, if_true, ite_true]
    exact (resolveTail_preserves pfe _).2 _ (by simp)

/-- C4 witness: a cancelled call keeps its cancellation even though the
second response carries a remote error envelope, and a fresh call whose
body fails to decode ends up with the decode error (back-referenced),
not the envelope error. -/
theorem claim_C4_witness :
    ((Chinup.set_response jlNone pfeEnvelope exC4chinup exC5resp).chinup)._exception
      = some { kind := .canceled, chinup := some 60 } ∧
    ((Chinup.set_response jlNone pfeEnvelope exC3a exC4resp).chinup)._exception
      = some { kind := .decodeError, chinup := some 50 } :=
  ⟨(claim_C4_first_error_wins jlNone pfeEnvelope exC4chinup exC5resp).1 _ rfl,
   (claim_C4_first_error_wins jlNone pfeEnvelope exC3a exC4resp).2 rfl rfl⟩

/-- On a call with no stored error, `resolveTail` stores exactly the
remote-error detector's verdict, back-referenced to the call. -/
theorem resolveTail_exc_none (pfe : Value → Option ExnKind) (c : Chinup)
    (h : c._exception = none) :
    ((Chinup.resolveTail pfe c).chinup)._exception =
      (pfe (c._response.getD .null)).map
        (fun k => { kind := k, chinup := some c.oid }) := by
  unfold Chinup.resolveTail
  rw [(prefetch_step_preserves _).2]
  have hn : c._exception.isNone = true := by simp [h]
  simp only [hn, if_true, ite_true]
  cases hp : pfe (c._response.getD .null) <;> simp [hp]

/-- C5 (amended): issuance stores nothing and cannot raise; with
`raise_exceptions` a stored error is raised exactly at `data`/`error`/
index access, and an error stored by resolution is back-referenced to
its call; with `raise_exceptions` off, `data` and `error` never raise
and in-page indexing never raises — resolution itself, however, can
re-raise the freshly stored error through the pagination prefetch, as
the counterexample shows. -/
theorem claim_C5_lazy_raise (jl : String → Option Value)
    (pfe : Value → Option ExnKind) :
    (∀ (oid cls : Nat) (method path : String) data token re cb pf,
      (Chinup.init oid cls method path data token re cb pf)._response = none ∧
      (Chinup.init oid cls method path data token re cb pf)._exception = none) ∧
    (∀ (c : Chinup) (e : Exn), c.raise_exceptions = true → c._exception = some e →
      c.data = .error (.stored e) ∧ c.error = .error (.stored e) ∧
      ∀ k, (c.getitem k).1 = .error (.stored e)) ∧
    (∀ (c : Chinup) (r : Value) (e2 : Exn),
      c._exception = none →
      ((Chinup.set_response jl pfe c r).chinup)._exception = some e2 →
      e2.chinup = some c.oid) ∧
    (∀ (c : Chinup), c.raise_exceptions = false → c.completed.isSome = true →
      (∃ v, c.data = .ok v) ∧ (∃ v, c.error = .ok v)) ∧
    (∀ (c : Chinup) (xs : VList) (i : Int), c.raise_exceptions = false →
      c.data = .ok (.list xs) → -(xs.length : Int) ≤ i → i < (xs.length : Int) →
      ∃ v, (c.getitem (.int i)).1 = .ok v) := by
  refine ⟨?_, ?_, ?_, ?_, ?_⟩
  · intro oid cls method path data token re cb pf
    exact ⟨rfl, rfl⟩
  · intro c e hre he
    have hraise : c.data = .error (.stored e) := by
      simp only [Chinup.data, Chinup.response_get, Chinup.maybe_raise_exception,
        Chinup.exception, Chinup.completed, hre, he, Option.isSome_some,
        Bool.or_true, if_pos, ite_true, if_true]
      rfl
    refine ⟨hraise, ?_, ?_⟩
    · simp only [Chinup.error, Chinup.response_get, Chinup.maybe_raise_exception,
        Chinup.exception, Chinup.completed, hre, he, Option.isSome_some,
        Bool.or_true, if_pos, ite_true, if_true]
      rfl
    · intro k
      simp [Chinup.getitem, hraise]
  · intro c r e2 hnone hsome
    unfold Chinup.set_response at hsome
    cases hb : bodyStep jl r with
    | fatal =>
        rw [hb] at hsome
        simp [hnone] at hsome
    | decodeFail =>
        rw [hb] at hsome
        dsimp only at hsome
        have hn : (c.withResp (some r))._exception.isNone = true := by simp [hnone]
        simp only [hn, if_true, ite_true] at hsome
        have hpr := (resolveTail_preserves pfe
          ((c.withResp (some r)).set_exception
            (some { kind := .decodeError, chinup := none }))).2
          { kind := .decodeError, chinup := some c.oid } (by simp)
        rw [hpr] at hsome
        cases hsome
        rfl
    | ok newResp =>
        rw [hb] at hsome
        dsimp only at hsome
        rw [resolveTail_exc_none pfe _ (by simp [hnone])] at hsome
        cases hp : pfe (((c.withResp (some r)).withResp (some newResp))._response.getD .null) <;>
          rw [hp] at hsome
        · simp at hsome
        · simp at hsome
          rw [← hsome]
  · intro c hre hcomp
    constructor
    · simp only [Chinup.data, Chinup.response_get, Chinup.maybe_raise_exception, hre,
        Bool.false_eq_true, if_false, ite_false, Chinup.response, hcomp, if_pos,
        ite_true, if_true]
      cases hr : c._response with
      | none => exact ⟨.null, rfl⟩
      | some v => cases v <;> exact ⟨_, rfl⟩
    · simp only [Chinup.error, Chinup.response_get, Chinup.maybe_raise_exception, hre,
        Bool.false_eq_true, if_false, ite_false, Chinup.response, hcomp, if_pos,
        ite_true, if_true]
      cases hr : c._response with
      | none => exact ⟨.null, rfl⟩
      | some v => cases v <;> exact ⟨_, rfl⟩
  · intro c xs i hre hdata hlo hhi
    simp only [Chinup.getitem, hdata, hhi, if_pos]
    unfold pyIndex
    have hlen := VList.length_toList xs
    by_cases h0 : 0 ≤ i
    · rw [dif_pos (by omega)]
      exact ⟨_, rfl⟩
    · rw [dif_neg (by omega), dif_pos (by omega)]
      exact ⟨_, rfl⟩

/-- C5 counterexample: resolving a fresh `raise_exceptions` call with an
error-enveloped response that also carries a next-page link and a
declared limit raises the freshly stored error already inside
`set_response` (via the prefetch reading `self.data`), i.e. at
resolution time; and with `raise_exceptions` off, indexing a call whose
response has no `data` payload still raises a `TypeError`. -/
theorem claim_C5_counterexample :
    (Chinup.set_response jlNone pfeEnvelope exC5chinup exC5resp).err
      = some (.stored { kind := .fbError (.dict (VDict.ofList [("code", .int 100)])),
                        chinup := some 21 }) ∧
    (exC5nodata.getitem (.int 0)).1 = .error .typeError ∧
    exC5nodata.raise_exceptions = false := by
  refine ⟨?_, ?_, rfl⟩ <;> rfl

/-- C5 witness: the stored remote error surfaces at `data` access on the
`raise_exceptions` call, while the quiet call's `data` access returns a
value. -/
theorem claim_C5_witness :
    exC5err.data = .error (.stored { kind := .fbError (.dict .dnil), chinup := some 23 }) ∧
    (∃ v, exC5nodata.data = .ok v) :=
  ⟨((claim_C5_lazy_raise jlNone pfeEnvelope).2.1 exC5err
      { kind := .fbError (.dict .dnil), chinup := some 23 } rfl rfl).1,
   ((claim_C5_lazy_raise jlNone pfeEnvelope).2.2.2.1 exC5nodata rfl rfl).1⟩

/-- Successful `mapM` over `Except`: the outputs match the inputs
one-to-one, in order. -/
theorem mapM_ok_spec {α β : Type} (f : α → Except Err β) :
    ∀ (l : List α) (res : List β), l.mapM f = .ok res →
      res.length = l.length ∧
      ∀ i (hi : i < l.length) (hj : i < res.length),
        f (l.get ⟨i, hi⟩) = .ok (res.get ⟨i, hj⟩) := by
  intro l
  induction l with
  | nil =>
      intro res h
      simp only [List.mapM_nil] at h
      cases h
      exact ⟨rfl, fun i hi hj => by simp at hi⟩
  | cons a t ih =>
      intro res h
      rw [List.mapM_cons] at h
      cases hfa : f a with
      | error e =>
          rw [hfa] at h
          dsimp only [Bind.bind, Except.bind] at h
          exact Except.noConfusion h
      | ok b =>
        rw [hfa] at h
        dsimp only [Bind.bind, Except.bind] at h
        cases hl : t.mapM f with
        | error e =>
            rw [hl] at h
            exact Except.noConfusion h
        | ok bs =>
          rw [hl] at h
          dsimp only [pure, Except.pure] at h
          have hres : res = b :: bs := by
            cases h
            rfl
          subst hres
          refine ⟨by simpa using (ih bs hl).1, ?_⟩
          intro i hi hj
          cases i with
          | zero => simpa using hfa
          | succ n =>
              exact (ih bs hl).2 n (by simpa using hi) (by simpa using hj)

/-- C6: `prepare_batch` returns the full call list and wire requests for
exactly the first `min 50 N` calls, `requests[i]` built from `calls[i]`,
nothing dropped, duplicated or reordered; calls beyond the ceiling get no
request. -/
theorem claim_C6_batch_ceiling (cfg : Cfg) (cs cs2 : List Chinup)
    (reqs : List ReqDict)
    (h : Chinup.prepare_batch cfg cs = .ok (cs2, reqs)) :
    cs2 = cs ∧ reqs.length = min 50 cs.length ∧
    ∀ i (hi : i < reqs.length), ∃ hc : i < cs.length,
      (cs.get ⟨i, hc⟩).make_request_dict cfg = .ok (reqs.get ⟨i, hi⟩) := by
  unfold Chinup.prepare_batch at h
  cases hm : (cs.take 50).mapM (Chinup.make_request_dict cfg) with
  | error e => rw [hm] at h; simp at h
  | ok rs =>
      rw [hm] at h
      simp only [bind, Except.bind, pure, Except.pure] at h
      cases h
      obtain ⟨hlen, hidx⟩ := mapM_ok_spec (Chinup.make_request_dict cfg) (cs.take 50) reqs hm
      have htake : (cs.take 50).length = min 50 cs.length := by
        simp [List.length_take]
      refine ⟨rfl, by omega, ?_⟩
      intro i hi
      have hc : i < cs.length := by omega
      refine ⟨hc, ?_⟩
      have hti : i < (cs.take 50).length := by omega
      have hget : (cs.take 50).get ⟨i, hti⟩ = cs.get ⟨i, hc⟩ := by
        simp [List.get_eq_getElem, List.getElem_take]
      have := hidx i hti hi
      rwa [hget] at this

/-- C6 witness: a two-call batch yields both wire requests, in order. -/
theorem claim_C6_witness :
    ∃ reqs, Chinup.prepare_batch cfgNone exC6chinups = .ok (exC6chinups, reqs) ∧
      reqs.length = min 50 exC6chinups.length :=
  ⟨[⟨"GET", ⟨"me", [("access_token", "TOK")]⟩, none, none⟩,
    ⟨"GET", ⟨"me/friends", [("access_token", "TOK"), ("a", "1"), ("b", "2")]⟩,
      none, none⟩],
   rfl,
   (claim_C6_batch_ceiling cfgNone exC6chinups exC6chinups _ rfl).2.1⟩

namespace Chinup

@[simp] theorem withExc_withExc (c : Chinup) (a b : Option Exn) :
    (c.withExc a).withExc b = c.withExc b := by
  cases c; rfl

theorem pages_mk_none (i cl : Nat) (r : Request) (t : Option String)
    (re : Bool) (cb : Option Nat) (p : Bool) (v : Option Value) (e : Option Exn) :
    pages (.mk i cl r t re cb p v e none) = [.mk i cl r t re cb p v e none] := rfl

theorem pages_mk_some (i cl : Nat) (r : Request) (t : Option String)
    (re : Bool) (cb : Option Nat) (p : Bool) (v : Option Value) (e : Option Exn)
    (nx : Chinup) :
    pages (.mk i cl r t re cb p v e (some nx)) =
      (Chinup.mk i cl r t re cb p v e (some nx)) :: nx.pages := rfl

theorem lastPage_mk_none (i cl : Nat) (r : Request) (t : Option String)
    (re : Bool) (cb : Option Nat) (p : Bool) (v : Option Value) (e : Option Exn) :
    lastPage (.mk i cl r t re cb p v e none) = .mk i cl r t re cb p v e none := rfl

theorem lastPage_mk_some (i cl : Nat) (r : Request) (t : Option String)
    (re : Bool) (cb : Option Nat) (p : Bool) (v : Option Value) (e : Option Exn)
    (nx : Chinup) :
    lastPage (.mk i cl r t re cb p v e (some nx)) = lastPage nx := rfl

/-- A page with a `some` record list reads back as that list. -/
theorem pageDataList_some (p : Chinup) (h : (pageDataList p).isSome = true) :
    ∃ xs, p.data = .ok (.list xs) ∧ pageDataList p = some xs.toList := by
  unfold pageDataList at h ⊢
  split at h
  · rename_i xs heq
    exact ⟨xs, heq, rfl⟩
  · simp at h

end Chinup

/-- Iterating from a fully materialized chain of list-data pages yields
the concatenation of the pages' records, leaves the head untouched, and
raises nothing. -/
theorem iterFrom_good (head : Chinup) :
    ∀ (cur : Chinup),
      (∀ p ∈ cur.pages, (Chinup.pageDataList p).isSome = true) →
      Chinup.fetch_next_page (Chinup.lastPage cur) =
        ⟨Chinup.lastPage cur, [], none⟩ →
      Chinup.iterFrom head cur =
        ((cur.pages.map fun p => (Chinup.pageDataList p).getD []).flatten, head, none)
  | .mk i cl r t re cb p v e none => by
      intro hall hlast
      have hmem : (Chinup.mk i cl r t re cb p v e none) ∈
          Chinup.pages (.mk i cl r t re cb p v e none) := by
        rw [Chinup.pages_mk_none]; exact List.mem_singleton.mpr rfl
      obtain ⟨xs, hdata, hpd⟩ := Chinup.pageDataList_some _ (hall _ hmem)
      rw [Chinup.lastPage_mk_none] at hlast
      unfold Chinup.iterFrom
      dsimp only
      rw [hdata, hlast]
      dsimp only
      rw [Chinup.pages_mk_none]
      simp [hpd, Chinup._next_page]
  | .mk i cl r t re cb p v e (some nx) => by
      intro hall hlast
      have hmem : (Chinup.mk i cl r t re cb p v e (some nx)) ∈
          Chinup.pages (.mk i cl r t re cb p v e (some nx)) := by
        rw [Chinup.pages_mk_some]; exact List.mem_cons_self _ _
      obtain ⟨xs, hdata, hpd⟩ := Chinup.pageDataList_some _ (hall _ hmem)
      rw [Chinup.lastPage_mk_some] at hlast
      have hrec := iterFrom_good head nx
        (fun q hq => hall q (by rw [Chinup.pages_mk_some]; exact List.mem_cons_of_mem _ hq))
        hlast
      unfold Chinup.iterFrom
      dsimp only
      rw [hdata]
      dsimp only
      rw [hrec, Chinup.pages_mk_some]
      simp [hpd]

/-- Hitting a page whose `data` is not a list: nothing is yielded from
that page, a `PagingError` back-referenced to the offending page is
recorded on the head, and it is raised exactly when the head has
`raise_exceptions` set. -/
theorem iterFrom_bad_here (head : Chinup) (hexc : head._exception = none)
    (hcomp : head.completed.isSome = true) (cur : Chinup) (v : Value)
    (hv : cur.data = .ok v) (hpd : Chinup.pageDataList cur = none) :
    Chinup.iterFrom head cur =
      ([], head.withExc (some { kind := .pagingError "Unexpected chinup.data while paging",
                                chinup := some cur.oid }),
       if head.raise_exceptions = true then
         some (.stored { kind := .pagingError "Unexpected chinup.data while paging",
                         chinup := some cur.oid })
       else none) := by
  have hx : Chinup.exception head = .ok none := by
    simp [Chinup.exception, hcomp, hexc]
  cases cur with
  | mk i cl r t re cb pf v0 e0 n =>
    unfold Chinup.iterFrom
    dsimp only
    rw [hv]
    cases v with
    | list xs =>
        exfalso
        unfold Chinup.pageDataList at hpd
        rw [hv] at hpd
        simp at hpd
    | null => rw [hx]; dsimp only [Chinup.set_exception]; simp [Chinup.maybe_raise_exception,
        Chinup.exception, Chinup.completed]; cases hre : head.raise_exceptions <;> (simp [hre]; try rfl)
    | bool b => rw [hx]; dsimp only [Chinup.set_exception]; simp [Chinup.maybe_raise_exception,
        Chinup.exception, Chinup.completed]; cases hre : head.raise_exceptions <;> (simp [hre]; try rfl)
    | int m => rw [hx]; dsimp only [Chinup.set_exception]; simp [Chinup.maybe_raise_exception,
        Chinup.exception, Chinup.completed]; cases hre : head.raise_exceptions <;> (simp [hre]; try rfl)
    | str s => rw [hx]; dsimp only [Chinup.set_exception]; simp [Chinup.maybe_raise_exception,
        Chinup.exception, Chinup.completed]; cases hre : head.raise_exceptions <;> (simp [hre]; try rfl)
    | dict d => rw [hx]; dsimp only [Chinup.set_exception]; simp [Chinup.maybe_raise_exception,
        Chinup.exception, Chinup.completed]; cases hre : head.raise_exceptions <;> (simp [hre]; try rfl)

/-- Iterating a chain whose pages are good lists up to a page with
non-list `data` yields exactly the good pages' records, then records and
possibly raises the paging error. -/
theorem iterFrom_bad (head : Chinup) (hexc : head._exception = none)
    (hcomp : head.completed.isSome = true) :
    ∀ (cur : Chinup) (good : List Chinup) (bad : Chinup) (rest : List Chinup)
      (v : Value),
      cur.pages = good ++ bad :: rest →
      (∀ p ∈ good, (Chinup.pageDataList p).isSome = true) →
      bad.data = .ok v →
      Chinup.pageDataList bad = none →
      Chinup.iterFrom head cur =
        ((good.map fun p => (Chinup.pageDataList p).getD []).flatten,
         head.withExc (some { kind := .pagingError "Unexpected chinup.data while paging",
                              chinup := some bad.oid }),
         if head.raise_exceptions = true then
           some (.stored { kind := .pagingError "Unexpected chinup.data while paging",
                           chinup := some bad.oid })
         else none)
  | .mk i cl r t re cb pf v0 e0 none => by
      intro good bad rest v hsplit hgood hbadv hbadpd
      rw [Chinup.pages_mk_none] at hsplit
      cases good with
      | nil =>
          simp only [List.nil_append] at hsplit
          injection hsplit with h1 h2
          subst h1
          simpa using iterFrom_bad_here head hexc hcomp _ v hbadv hbadpd
      | cons g gs =>
          exfalso
          have := congrArg List.length hsplit
          simp at this
  | .mk i cl r t re cb pf v0 e0 (some nx) => by
      intro good bad rest v hsplit hgood hbadv hbadpd
      rw [Chinup.pages_mk_some] at hsplit
      cases good with
      | nil =>
          simp only [List.nil_append] at hsplit
          injection hsplit with h1 h2
          subst h1
          simpa using iterFrom_bad_here head hexc hcomp _ v hbadv hbadpd
      | cons g gs =>
          simp only [List.cons_append] at hsplit
          injection hsplit with h1 h2
          have hrec := iterFrom_bad head hexc hcomp nx gs bad rest v h2
            (fun p hp => hgood p (List.mem_cons_of_mem _ hp)) hbadv hbadpd
          have hcur : (Chinup.pageDataList
              (.mk i cl r t re cb pf v0 e0 (some nx))).isSome = true := by
            rw [h1]
            exact hgood g (List.mem_cons_self _ _)
          obtain ⟨xs, hdata, hpd⟩ := Chinup.pageDataList_some _ hcur
          unfold Chinup.iterFrom
          dsimp only
          rw [hdata]
          dsimp only
          rw [hrec, ← h1]
          simp [hpd]

/-- C7: iterating a finite materialized chain of completed pages whose
`data` fields are all lists yields exactly the concatenation of the
pages' records in order, terminating with the head untouched; when some
page's `data` is not a list, only the records of the pages before it are
yielded and a paging error back-referenced to the offending page is
recorded on the head (and raised when `raise_exceptions` is set). -/
theorem claim_C7_iteration_flattens (c : Chinup) :
    ((∀ p ∈ c.pages, (Chinup.pageDataList p).isSome = true) →
      Chinup.fetch_next_page (Chinup.lastPage c) = ⟨Chinup.lastPage c, [], none⟩ →
      c.iter = ⟨(c.pages.map fun p => (Chinup.pageDataList p).getD []).flatten,
                c, none⟩) ∧
    (∀ (good : List Chinup) (bad : Chinup) (rest : List Chinup) (v : Value),
      c.pages = good ++ bad :: rest →
      (∀ p ∈ good, (Chinup.pageDataList p).isSome = true) →
      bad.data = .ok v → Chinup.pageDataList bad = none →
      c._exception = none → c.completed.isSome = true →
      c.iter = ⟨(good.map fun p => (Chinup.pageDataList p).getD []).flatten,
        c.withExc (some { kind := .pagingError "Unexpected chinup.data while paging",
                          chinup := some bad.oid }),
        if c.raise_exceptions = true then
          some (.stored { kind := .pagingError "Unexpected chinup.data while paging",
                          chinup := some bad.oid })
        else none⟩) := by
  constructor
  · intro hall hlast
    unfold Chinup.iter
    rw [iterFrom_good c c hall hlast]
  · intro good bad rest v hs hg hbv hbpd hexc hcomp
    unfold Chinup.iter
    rw [iterFrom_bad c hexc hcomp c good bad rest v hs hg hbv hbpd]

/-- C7 witness: the 2-2-1 three-page cursor yields exactly its five
records in order without error; the chain ending in a non-list page
yields only the first page's two records and records/raises the paging
error pointed at the bad page. -/
theorem claim_C7_witness :
    exC7p1.iter.yields = [.int 1, .int 2, .int 3, .int 4, .int 5] ∧
    exC7p1.iter.err = none ∧
    exC7headbad.iter.yields = [.int 1, .int 2] ∧
    exC7headbad.iter.err =
      some (.stored { kind := .pagingError "Unexpected chinup.data while paging",
                      chinup := some 5 }) := by
  have h1 := (claim_C7_iteration_flattens exC7p1).1 (by decide) rfl
  have h2 := (claim_C7_iteration_flattens exC7headbad).2
    [exC7headbad] exC7bad [] (.int 7) rfl (by decide) rfl rfl rfl (by decide)
  refine ⟨?_, ?_, ?_, ?_⟩
  · rw [h1]
    rfl
  · rw [h1]
  · rw [h2]
    rfl
  · rw [h2]
    rfl

/-- C3 counterexample: with equal normalized requests, a call without a
callback compares equal to one carrying a callback (the code only checks
the left operand's callback), so "if either carries a callback the
callbacks must match" fails, and so does symmetry. -/
theorem claim_C3_counterexample :
    Chinup.eq cfgNone devInodeZero exC3a exC3b = .ok true ∧
    exC3a.callback ≠ exC3b.callback ∧
    Chinup.eq cfgNone devInodeZero exC3b exC3a = .ok false := by
  refine ⟨rfl, by decide, rfl⟩

/-- C3 (amended): two calls of the same class with successfully
normalized request dicts are `__eq__`-equal iff those dicts agree, the
LEFT operand's callback — when present — matches the other's callback
and completion pair, and, when either call is completed, the completion
pairs match.  The callback condition consults only the left operand, so
the relation is not symmetric. -/
theorem claim_C3_eq_characterization (cfg : Cfg) (devInode : String → Nat × Nat)
    (a b : Chinup) (ra rb : EqDict)
    (ha : a.make_eq_dict cfg devInode = .ok ra)
    (hb : b.make_eq_dict cfg devInode = .ok rb) :
    Chinup.eq cfg devInode a b =
      .ok (decide (a.cls = b.cls ∧ ra = rb ∧
        (a.callback.isSome = true →
          a.callback = b.callback ∧ a.completed = b.completed) ∧
        ((a.completed.isSome = true ∨ b.completed.isSome = true) →
          a.completed = b.completed))) := by
  unfold Chinup.eq
  by_cases hcls : a.cls = b.cls
  · simp only [hcls, ne_eq, not_true_eq_false, reduceIte, ha, hb]
    dsimp only [Bind.bind, Except.bind]
    by_cases hr : ra = rb
    · subst hr
      rw [if_neg (by simp)]
      by_cases hcb : a.callback.isSome = true
      · by_cases hcbeq : a.callback = b.callback
        · have hb2 : b.callback.isSome = true := hcbeq ▸ hcb
          by_cases hcomp : a.completed = b.completed
          · (simp [hcb, hcbeq, hcomp, hcls, hb2]; try rfl)
          · (simp [hcb, hcbeq, hcomp, hcls, hb2]; try rfl)
        · (simp [hcb, hcbeq, hcls]; try rfl)
      · have hnone : a.callback.isSome = false := by simpa using hcb
        by_cases hcomp : a.completed = b.completed
        · (simp [hnone, hcomp, hcls]; try rfl)
        · have hor : a.completed.isSome = true ∨ b.completed.isSome = true := by
            cases hav : a.completed <;> cases hbv : b.completed <;> simp_all
          rcases hor with h | h <;> (simp [hnone, hcomp, h, hcls]; try rfl)
    · have hnp : ¬(True ∧ ra = rb ∧
          (a.callback.isSome = true →
            a.callback = b.callback ∧ a.completed = b.completed) ∧
          ((a.completed.isSome = true ∨ b.completed.isSome = true) →
            a.completed = b.completed)) := fun hP => hr hP.2.1
      rw [if_pos (by exact hr), decide_eq_false hnp]
      rfl
  · simp [hcls]
    rfl

/-- C3 witness: the characterization evaluated on the two concrete calls
reproduces the asymmetric outcome. -/
theorem claim_C3_witness :
    Chinup.eq cfgNone devInodeZero exC3a exC3b = .ok true ∧
    Chinup.eq cfgNone devInodeZero exC3b exC3a = .ok false := by
  constructor
  · rw [claim_C3_eq_characterization cfgNone devInodeZero exC3a exC3b _ _ rfl rfl]
    rfl
  · rw [claim_C3_eq_characterization cfgNone devInodeZero exC3b exC3a _ _ rfl rfl]
    rfl

theorem charLtb_irrefl (x : Char) : charLtb x x = false := by
  simp [charLtb]

theorem char_eq_of_toNat_eq (a b : Char) (h : a.toNat = b.toNat) : a = b := by
  unfold Char.toNat at h
  exact Char.ext (UInt32.toNat.inj h)

theorem strLtb_go_irrefl : ∀ l, strLtb.go l l = false
  | [] => rfl
  | c :: cs => by simp [strLtb.go, charLtb, strLtb_go_irrefl cs]

theorem strLtb_go_asymm : ∀ a b, strLtb.go a b = true → strLtb.go b a = false
  | [], [] => by simp [strLtb.go]
  | [], _ :: _ => by simp [strLtb.go]
  | _ :: _, [] => by simp [strLtb.go]
  | x :: xs, y :: ys => by
      intro h
      simp only [strLtb.go, charLtb, Bool.or_eq_true, Bool.and_eq_true,
        decide_eq_true_eq, beq_iff_eq] at h
      simp only [strLtb.go, charLtb, Bool.or_eq_false_iff, Bool.and_eq_false_iff,
        decide_eq_false_iff_not, beq_eq_false_iff_ne, ne_eq]
      rcases h with h | ⟨rfl, h⟩
      · refine ⟨by omega, Or.inl ?_⟩
        intro heq
        subst heq
        omega
      · exact ⟨by omega, Or.inr (strLtb_go_asymm xs ys h)⟩

theorem strLtb_go_trans : ∀ a b c, strLtb.go a b = true → strLtb.go b c = true →
    strLtb.go a c = true
  | _, [], [] => by simp [strLtb.go]
  | _ :: _, _ :: _, [] => by simp [strLtb.go]
  | [], _ :: _, [] => by simp [strLtb.go]
  | [], [], _ :: _ => by simp [strLtb.go]
  | [], _ :: _, _ :: _ => by simp [strLtb.go]
  | _ :: _, [], _ :: _ => by simp [strLtb.go]
  | x :: xs, y :: ys, z :: zs => by
      intro h1 h2
      simp only [strLtb.go, charLtb, Bool.or_eq_true, Bool.and_eq_true,
        decide_eq_true_eq, beq_iff_eq] at h1 h2 ⊢
      rcases h1 with h1 | ⟨rfl, h1⟩ <;> rcases h2 with h2 | ⟨rfl, h2⟩
      · left; omega
      · left; exact h1
      · left; exact h2
      · exact Or.inr ⟨rfl, strLtb_go_trans xs ys zs h1 h2⟩

theorem strLtb_go_total : ∀ a b, strLtb.go a b = false → strLtb.go b a = false → a = b
  | [], [] => by intro h1 h2; rfl
  | [], _ :: _ => by simp [strLtb.go]
  | _ :: _, [] => by intro h1 h2; simp [strLtb.go] at h2
  | x :: xs, y :: ys => by
      intro h1 h2
      simp only [strLtb.go, charLtb, Bool.or_eq_false_iff, Bool.and_eq_false_iff,
        decide_eq_false_iff_not, beq_eq_false_iff_ne, ne_eq] at h1 h2
      obtain ⟨hxy, h1r⟩ := h1
      obtain ⟨hyx, h2r⟩ := h2
      have hx : x = y := char_eq_of_toNat_eq x y (by omega)
      subst hx
      rcases h1r with h1r | h1r
      · exact absurd rfl h1r
      · rcases h2r with h2r | h2r
        · exact absurd rfl h2r
        · rw [strLtb_go_total xs ys h1r h2r]

theorem strLtb_asymm (a b : String) (h : strLtb a b = true) : strLtb b a = false :=
  strLtb_go_asymm a.toList b.toList h

theorem strLtb_trans (a b c : String) (h1 : strLtb a b = true)
    (h2 : strLtb b c = true) : strLtb a c = true :=
  strLtb_go_trans a.toList b.toList c.toList h1 h2

theorem strLtb_total (a b : String) (h1 : strLtb a b = false)
    (h2 : strLtb b a = false) : a = b :=
  String.ext (strLtb_go_total a.toList b.toList h1 h2)

theorem insByKey_perm (x : String × PVal) :
    ∀ l, (insByKey x l).Perm (x :: l)
  | [] => List.Perm.refl _
  | y :: ys => by
      unfold insByKey
      split
      · exact ((insByKey_perm x ys).cons y).trans (List.Perm.swap x y ys)
      · exact List.Perm.refl _

theorem sortItems_perm : ∀ l, (sortItems l).Perm l
  | [] => List.Perm.refl _
  | x :: xs => by
      unfold sortItems
      exact (insByKey_perm x (sortItems xs)).trans ((sortItems_perm xs).cons x)

theorem insByKey_pairwise (x : String × PVal) :
    ∀ l, l.Pairwise (fun p q => strLtb q.1 p.1 = false) →
      (insByKey x l).Pairwise (fun p q => strLtb q.1 p.1 = false)
  | [], _ => by simp [insByKey]
  | y :: ys, h => by
      rw [List.pairwise_cons] at h
      obtain ⟨hy, hys⟩ := h
      unfold insByKey
      split
      · rename_i hlt
        rw [List.pairwise_cons]
        constructor
        · intro z hz
          rcases List.mem_cons.mp ((insByKey_perm x ys).mem_iff.mp hz) with heq | hz2
          · rw [heq]
            exact strLtb_asymm _ _ hlt
          · exact hy z hz2
        · exact insByKey_pairwise x ys hys
      · rename_i hnlt
        rw [List.pairwise_cons]
        constructor
        · intro z hz
          rcases List.mem_cons.mp hz with heq | hz2
          · rw [heq]
            simpa using hnlt
          · by_contra hc
            have hzx : strLtb z.1 x.1 = true := by simpa using hc
            have hzy : strLtb z.1 y.1 = false := hy z hz2
            have hyx : strLtb y.1 x.1 = false := by simpa using hnlt
            rcases hcase : strLtb y.1 z.1 with hf | ht
            · have : y.1 = z.1 := strLtb_total _ _ hcase hzy
              rw [← this] at hzx
              rw [hzx] at hyx
              exact Bool.noConfusion hyx
            · have := strLtb_trans _ _ _ hcase hzx
              rw [this] at hyx
              exact Bool.noConfusion hyx
        · exact List.Pairwise.cons hy hys

theorem sortItems_pairwise :
    ∀ l, (sortItems l).Pairwise (fun p q => strLtb q.1 p.1 = false)
  | [] => by simp [sortItems]
  | x :: xs => by
      unfold sortItems
      exact insByKey_pairwise x (sortItems xs) (sortItems_pairwise xs)

/-- Sorting a dict's items is a function of the underlying mapping: two
insertion orders of the same bindings (keys unique) sort identically. -/
theorem sortItems_congr (p1 p2 : List (String × PVal)) (hperm : p1.Perm p2)
    (hnd : (p1.map Prod.fst).Nodup) : sortItems p1 = sortItems p2 := by
  have hnd2 : (p2.map Prod.fst).Nodup := (hperm.map Prod.fst).nodup hnd
  have hperm12 : (sortItems p1).Perm (sortItems p2) :=
    (sortItems_perm p1).trans (hperm.trans (sortItems_perm p2).symm)
  have hstrict : ∀ (l : List (String × PVal)), (l.map Prod.fst).Nodup →
      (sortItems l).Pairwise (fun p q => strLtb q.1 p.1 = false) →
      (sortItems l).Pairwise (fun p q => strLtb p.1 q.1 = true) := by
    intro l hl hp
    have hndl : ((sortItems l).map Prod.fst).Nodup :=
      ((sortItems_perm l).symm.map Prod.fst).nodup hl
    have hne : (sortItems l).Pairwise (fun p q => p.1 ≠ q.1) :=
      (List.pairwise_map).mp hndl
    refine (hp.and hne).imp ?_
    rintro p q ⟨hle, hne⟩
    rcases hcase : strLtb p.1 q.1 with hf | ht
    · exact absurd (strLtb_total _ _ hcase hle) hne
    · rfl
  haveI : IsAntisymm (String × PVal) (fun p q => strLtb p.1 q.1 = true) :=
    ⟨fun p q h1 h2 => absurd h1 (by rw [strLtb_asymm _ _ h2]; simp)⟩
  exact List.eq_of_perm_of_sorted hperm12
    (hstrict p1 hnd (sortItems_pairwise p1))
    (hstrict p2 hnd2 (sortItems_pairwise p2))

/-- C9 (amended): parameter insertion order never affects the wire
request: for non-`POST` methods the parameters are serialized as sorted
query parameters, and for `POST` the plain parameters are *also*
serialized sorted into the URL-encoded body (the source sorts there
too), so two descriptors differing only in insertion order of the same
parameter mapping produce identical wire requests. -/
theorem claim_C9_param_order (cfg : Cfg) (oid1 oid2 cls : Nat)
    (method path : String) (tok : Option String) (re : Bool) (cb : Option Nat)
    (pf : Bool) (p1 p2 : List (String × PVal))
    (hperm : p1.Perm p2) (hnd : (p1.map Prod.fst).Nodup) :
    (method ≠ "POST" →
      Chinup.make_request_dict cfg
        (.mk oid1 cls ⟨method, path, some p1⟩ tok re cb pf none none none) =
      Chinup.make_request_dict cfg
        (.mk oid2 cls ⟨method, path, some p2⟩ tok re cb pf none none none)) ∧
    ((∀ x ∈ p1, ∃ s, x.2 = PVal.s s) →
      Chinup.make_request_dict cfg
        (.mk oid1 cls ⟨method, path, some p1⟩ tok re cb pf none none none) =
      Chinup.make_request_dict cfg
        (.mk oid2 cls ⟨method, path, some p2⟩ tok re cb pf none none none)) := by
  have hsort := sortItems_congr p1 p2 hperm hnd
  have hnonpost : method ≠ "POST" →
      Chinup.make_request_dict cfg
        (.mk oid1 cls ⟨method, path, some p1⟩ tok re cb pf none none none) =
      Chinup.make_request_dict cfg
        (.mk oid2 cls ⟨method, path, some p2⟩ tok re cb pf none none none) := by
    intro hm
    unfold Chinup.make_request_dict
    dsimp only [Chinup.request, Chinup.token]
    by_cases hdt : method = "DEBUG_TOKEN"
    · subst hdt
      by_cases ht : tokenTruthy tok
      · simp [ht, hsort]
      · simp [ht]
        rfl
    · by_cases ht : tokenTruthy tok
      · simp [hdt, ht, hm, hsort]
      · simp [hdt, ht, hm, hsort]
  refine ⟨hnonpost, ?_⟩
  intro hall
  by_cases hp : method = "POST"
  · subst hp
    have hall2 : ∀ x ∈ p2, ∃ s, x.2 = PVal.s s :=
      fun x hx => hall x (hperm.mem_iff.mpr hx)
    have hf1 : p1.filter (fun p => match p.2 with | .s _ => true | .file _ => false)
        = p1 :=
      List.filter_eq_self.mpr (fun a ha => by
        obtain ⟨s, hs⟩ := hall a ha; simp [hs])
    have hf2 : p2.filter (fun p => match p.2 with | .s _ => true | .file _ => false)
        = p2 :=
      List.filter_eq_self.mpr (fun a ha => by
        obtain ⟨s, hs⟩ := hall2 a ha; simp [hs])
    have hm1 : p1.filterMap
        (fun p => match p.2 with | .s _ => none | .file n => some (p.1, n)) = [] :=
      List.filterMap_eq_nil_iff.mpr (fun a ha => by
        obtain ⟨s, hs⟩ := hall a ha; simp [hs])
    have hm2 : p2.filterMap
        (fun p => match p.2 with | .s _ => none | .file n => some (p.1, n)) = [] :=
      List.filterMap_eq_nil_iff.mpr (fun a ha => by
        obtain ⟨s, hs⟩ := hall2 a ha; simp [hs])
    have hemp : p1.isEmpty = p2.isEmpty := by
      have hlen := hperm.length_eq
      cases p1 <;> cases p2 <;> simp_all
    unfold Chinup.make_request_dict
    dsimp only [Chinup.request, Chinup.token]
    by_cases ht : tokenTruthy tok
    · simp [ht, partitionFiles, hf1, hf2, hm1, hm2, hemp, hsort]
    · simp [ht, partitionFiles, hf1, hf2, hm1, hm2, hemp, hsort]
  · exact hnonpost hp

/-- C9 counterexample: a `POST` issued with parameters in insertion
order `b, a` gets the *sorted* body `a=1&b=2`, not the insertion-ordered
`b=2&a=1` the claim predicts. -/
theorem claim_C9_counterexample :
    (Chinup.make_request_dict cfgNone exC9ba).map ReqDict.body
      = .ok (some "a=1&b=2") ∧
    urlencode [("b", .s "2"), ("a", .s "1")] = "b=2&a=1" ∧
    ("a=1&b=2" : String) ≠ "b=2&a=1" := by
  refine ⟨rfl, rfl, by decide⟩

/-- C9 witness: the two insertion orders of the same `POST` parameters
produce the same wire request. -/
theorem claim_C9_witness :
    Chinup.make_request_dict cfgNone exC9ba = Chinup.make_request_dict cfgNone exC9ab :=
  (claim_C9_param_order cfgNone 41 42 0 "POST" "me/feed" none true none true
    [("b", .s "2"), ("a", .s "1")] [("a", .s "1"), ("b", .s "2")]
    (by decide) (by decide)).2 (by
      intro x hx
      rcases List.mem_cons.mp hx with h | hx2
      · exact ⟨"2", by rw [h]⟩
      · rcases List.mem_cons.mp hx2 with h | hx3
        · exact ⟨"1", by rw [h]⟩
        · simp at hx3)
